import Mathlib

/-
Verification of the coc-black-formatter provisioning and path-resolution
pipeline. The TypeScript sources are shallowly embedded as pure Lean
functions; stateful parts (the detection cache) are modelled by explicit
state passing, and each subprocess or filesystem effect is a parameter.
-/

namespace CocBlack

/-! ## Path Style Translator (toMsys2Path, src/unnamed/part_000 lines 76-114) -/

/-- One character of the backslash normalization `inputPath.replace` of all
backslashes by forward slashes. -/
def slashChar (c : Char) : Char :=
  if c = '\\' then '/' else c

/-- Embedding of the regex replace: every backslash becomes a forward slash. -/
def normalizeSlashes (s : String) : String :=
  String.mk (s.data.map slashChar)

/-- The regex character class of a to z and A to Z, as used by both match
patterns in toMsys2Path. -/
def isRegexLetter (c : Char) : Bool :=
  decide (97 ≤ c.toNat ∧ c.toNat ≤ 122) || decide (65 ≤ c.toNat ∧ c.toNat ≤ 90)

/-- A character the regex dot can match: the regex dot excludes the four
line-terminator characters, so a trailing group of dots only matches a
remainder free of them. -/
def dotOk (c : Char) : Bool :=
  c != '\n' && c != '\r' && c != '\u2028' && c != '\u2029'

/-- Embedding of the anchored match of slash, one letter group, slash, and a
dot-star group running to the end of the string. Returns the letter and the
remainder on success. -/
def msysMatch : List Char → Option (Char × List Char)
  | c0 :: d :: c2 :: rest =>
    if c0 == '/' && isRegexLetter d && c2 == '/' && rest.all dotOk then
      some (d, rest)
    else none
  | _ => none

/-- Embedding of the anchored match of one letter group, colon, slash, and a
dot-star group running to the end of the string. Returns the letter and the
remainder on success. -/
def winMatch : List Char → Option (Char × List Char)
  | d :: c1 :: c2 :: rest =>
    if isRegexLetter d && c1 == ':' && c2 == '/' && rest.all dotOk then
      some (d, rest)
    else none
  | _ => none

/-- ASCII lower-casing of a single character, the behaviour of the source
toLowerCase call on the captured drive letter. -/
def lowerChar (c : Char) : Char :=
  if 65 ≤ c.toNat ∧ c.toNat ≤ 90 then Char.ofNat (c.toNat + 32) else c

/-- Embedding of the regex replace removing every leading forward slash of the
remainder in the first branch of toMsys2Path. -/
def dropLeadingSlashes (l : List Char) : List Char :=
  l.dropWhile (fun c => c == '/')

/-- The error message thrown by toMsys2Path when no form matches; it embeds the
original input. -/
def msysErrorMsg (inputPath : String) : String :=
  "Cannot convert to MSYS2 path: \"" ++ inputPath ++
    "\". Expected Windows absolute path (e.g., \"C:\\a\\b\") or MSYS2 path (e.g., \"/c/a/b\")."

/-- Embedding of toMsys2Path. The three branches mirror the source: an
MSYS2-form match with leading-slash collapsing of the remainder, a drive-letter
match returning the remainder verbatim, and a retry of the drive-letter match
on the resolved absolute path. The resolver of the source (path.resolve) is a
parameter. Throwing is modelled by the error side of Except. -/
def toMsys2Path (resolve : String → String) (inputPath : String) : Except String String :=
  let normalized := normalizeSlashes inputPath
  match msysMatch normalized.data with
  | some (d, rest) =>
      Except.ok (String.mk ('/' :: lowerChar d :: '/' :: dropLeadingSlashes rest))
  | none =>
    match winMatch normalized.data with
    | some (d, rest) =>
        Except.ok (String.mk ('/' :: lowerChar d :: '/' :: rest))
    | none =>
      let absWin := normalizeSlashes (resolve inputPath)
      match winMatch absWin.data with
      | some (d, rest) =>
          Except.ok (String.mk ('/' :: lowerChar d :: '/' :: rest))
      | none => Except.error (msysErrorMsg inputPath)

/-- The 52 characters of the regex letter class, for concrete quantification
over drive letters. -/
def asciiLetters : List Char :=
  ['a', 'b', 'c', 'd', 'e', 'f', 'g', 'h', 'i', 'j', 'k', 'l', 'm',
   'n', 'o', 'p', 'q', 'r', 's', 't', 'u', 'v', 'w', 'x', 'y', 'z',
   'A', 'B', 'C', 'D', 'E', 'F', 'G', 'H', 'I', 'J', 'K', 'L', 'M',
   'N', 'O', 'P', 'Q', 'R', 'S', 'T', 'U', 'V', 'W', 'X', 'Y', 'Z']

/-! ## Path Style Detector (isMsys2Python, src/unnamed/part_000 lines 10-64)

The module-level map from absolute path to detection promise is modelled as an
association list from path to a promise identifier; calls and child-process
events are the state transitions. JavaScript runs each of these handlers
atomically on a single thread, so each transition is one step. -/

/-- State of the detector: the promise cache keyed by absolute path, and a
fresh-identifier counter standing for allocation of a new promise. -/
structure DetState where
  cache : List (String × Nat)
  nextId : Nat
deriving DecidableEq, Repr

/-- One synchronous invocation of isMsys2Python at an already resolved
absolute path. Returns the new state, the promise identifier handed to the
caller, and whether a new probe subprocess was spawned by this call. A cache
hit returns the cached promise and spawns nothing; a miss spawns a probe,
caches the fresh promise and returns it. -/
def isMsys2Python (st : DetState) (absPath : String) : DetState × Nat × Bool :=
  match st.cache.lookup absPath with
  | some p => (st, p, false)
  | none => (DetState.mk ((absPath, st.nextId) :: st.cache) (st.nextId + 1), st.nextId, true)

/-- Iterate n successive calls for the same key, collecting for each call the
promise identifier returned and whether it spawned a probe. -/
def callN (st : DetState) (k : String) : Nat → DetState × List (Nat × Bool)
  | 0 => (st, [])
  | Nat.succ n =>
    let r := isMsys2Python st k
    let rest := callN r.1 k n
    (rest.1, r.2 :: rest.2)

/-- Number of probe subprocesses spawned over a sequence of call records. -/
def spawnCount (l : List (Nat × Bool)) : Nat :=
  (l.filter (fun e => e.2)).length

/-- Whitespace in the sense of the JavaScript trim call, restricted to the
characters that can occur here. -/
def isJsSpace (c : Char) : Bool :=
  c == ' ' || c == '\t' || c == '\n' || c == '\r' || c == '\x0b' ||
    c == '\x0c' || c == '\u00a0' || c == '\ufeff' || c == '\u2028' || c == '\u2029'

/-- Embedding of the trim call: strip whitespace from both ends. -/
def jsTrim (s : String) : String :=
  String.mk (((s.data.dropWhile isJsSpace).reverse.dropWhile isJsSpace).reverse)

/-- Template rendering of a nullable exit code, as in the source template
literal: null prints as the word null. -/
def optIntStr : Option Int → String
  | none => "null"
  | some i => toString i

/-- Template rendering of a nullable signal name. -/
def optStrStr : Option String → String
  | none => "null"
  | some s => s

/-- A terminal event of the probe child process: either the close event with
exit code, signal, and the accumulated stdout and stderr text, or the error
event carrying the spawn-failure message. A timeout surfaces as a close event
with a non-null signal. -/
inductive ProbeEvent where
  | close (code : Option Int) (signal : Option String) (stdout stderr : String)
  | spawnError (msg : String)
deriving DecidableEq, Repr

/-- How a detection promise settles. -/
inductive ProbeOutcome where
  | resolved (isMsys : Bool)
  | rejected (msg : String)
deriving DecidableEq, Repr

/-- The error-event handler and the close-event handler of isMsys2Python for
the probe of absPath: the error event deletes the cache entry and rejects; a
close with nonzero code or a signal rejects without touching the cache; a
clean close resolves true exactly when trimmed stdout equals the MSYS2
sentinel. -/
def handleProbeEvent (st : DetState) (absPath : String) (ev : ProbeEvent) :
    DetState × ProbeOutcome :=
  match ev with
  | ProbeEvent.spawnError msg =>
      (DetState.mk (st.cache.filter (fun e => !(e.1 == absPath))) st.nextId,
       ProbeOutcome.rejected ("Failed to spawn Python at " ++ absPath ++ ": " ++ msg))
  | ProbeEvent.close code signal out errout =>
      if code ≠ some 0 ∨ signal ≠ none then
        (st, ProbeOutcome.rejected
          ("Python at " ++ absPath ++ " exited with code " ++ optIntStr code ++
            " or signal " ++ optStrStr signal ++ ". Stderr: \"" ++ jsTrim errout ++ "\""))
      else
        (st, ProbeOutcome.resolved (jsTrim out == "MSYS2"))

/-! ## Filesystem model and installServer.ts -/

/-- Joining of two path segments; the model uses the forward-slash separator
uniformly. -/
def pJoin (a b : String) : String := a ++ "/" ++ b

/-- String prefix test, computed on the character lists. -/
def strIsPrefixOf (p s : String) : Bool := p.data.isPrefixOf s.data

/-- The startsWith test of the os-name check, computed on the character
lists. -/
def strStartsWith (s pre : String) : Bool := pre.data.isPrefixOf s.data

/-- Recursive removal of a path: deletes the path itself and everything below
it, the semantics of the rimraf call. The filesystem is the list of extant
paths. -/
def removeTree (fs : List String) (t : String) : List String :=
  fs.filter (fun p => !(p == t || strIsPrefixOf (t ++ "/") p))

/-- Renaming of a directory tree from one root to another. -/
def renameTree (fs : List String) (src dst : String) : List String :=
  fs.map (fun p =>
    if p == src then dst
    else if strIsPrefixOf (src ++ "/") p then dst ++ (p.drop src.length)
    else p)

/-- Embedding of doExtract (src/src/commands/installServer.ts lines 131-158).
The zip entry list of the archive is a parameter; extraction writes each entry
under the storage path. The unpacked target directory is removed first,
unconditionally, and only then is the presence of the archive checked; a
missing archive skips the whole extraction block and the function returns
normally. -/
def doExtract (fs : List String) (storagePath toolName _versionTag : String)
    (entries : List String) : List String :=
  let zipPath := pJoin storagePath (toolName ++ ".zip")
  let targetPath := pJoin storagePath toolName
  let fs1 := removeTree fs targetPath
  if fs1.contains zipPath then
    let extractedBase := pJoin storagePath (entries.headD "")
    let fs2 := fs1 ++ entries.map (fun e => pJoin storagePath e)
    let fs3 := pJoin extractedBase ("version.txt") :: fs2
    let fs4 := renameTree fs3 extractedBase targetPath
    removeTree fs4 zipPath
  else fs1

/-- Result of running one child process to completion: the close event with
code zero, the close event with a failing code, or the error event. -/
inductive RunResult where
  | ok (stdout stderr : String)
  | exitFail (code : Option Int) (stderr : String)
  | spawnFail (msg : String)
deriving DecidableEq, Repr

/-- A crude rendering of the JSON stringification of the argument list used in
the failure message of spawnAsync. -/
def jsonArr (args : List String) : String :=
  "[" ++ String.intercalate "," (args.map (fun a => "\"" ++ a ++ "\"")) ++ "]"

/-- Embedding of spawnAsync (installServer.ts lines 171-211): resolves with the
captured output on exit code zero, rejects with a message carrying the code,
arguments and stderr on a nonzero code, and rejects with the underlying error
on a spawn failure. -/
def spawnAsync (args : List String) (r : RunResult) : Except String (String × String) :=
  match r with
  | RunResult.ok o e => Except.ok (o, e)
  | RunResult.exitFail c st =>
      Except.error ("Command failed with exit code " ++ optIntStr c ++ ".\nArgs: " ++
        jsonArr args ++ "\nStderr: " ++ st)
  | RunResult.spawnFail m => Except.error m

/-- Embedding of getVenvPythonPath (installServer.ts lines 160-169): the
managed interpreter path, with the bin directory chosen by platform and the
MINGW test on the report os name, and the exe suffix chosen by platform
alone. -/
def getVenvPythonPath (storagePath venvName platform osName : String) : String :=
  let venvRoot := pJoin (pJoin storagePath venvName) "venv"
  let binDir :=
    if platform == "win32" && !(strStartsWith osName "MINGW") then "Scripts" else "bin"
  let ext := if platform == "win32" then ".exe" else ""
  pJoin (pJoin venvRoot binDir) ("python" ++ ext)

/-- Embedding of doInstall (installServer.ts lines 213-258). The runner maps a
command and arguments to its RunResult. Returns the final filesystem, the
overall result, and the list of process invocations attempted, in order.
Global mode returns immediately; otherwise the manifest check precedes the
removal of the old venv, and the two runner steps execute in order with the
first failure aborting. -/
def doInstall (useGlobal : Bool) (fs : List String)
    (storagePath toolName pythonCommand platform osName : String)
    (runner : String → List String → RunResult) :
    List String × Except String Unit × List (String × List String) :=
  if useGlobal then (fs, Except.ok (), [])
  else
    let requirementsTxtPath := pJoin (pJoin storagePath toolName) "requirements.txt"
    let venvRoot := pJoin (pJoin storagePath toolName) "venv"
    let venvPython := getVenvPythonPath storagePath toolName platform osName
    if !(fs.contains requirementsTxtPath) then
      (fs, Except.error "Missing requirements.txt", [])
    else
      let fs1 := removeTree fs venvRoot
      let args1 := ["-m", "venv", venvRoot]
      match spawnAsync args1 (runner pythonCommand args1) with
      | Except.error e => (fs1, Except.error e, [(pythonCommand, args1)])
      | Except.ok _ =>
        let args2 := ["-m", "pip", "install", "-r", requirementsTxtPath]
        match spawnAsync args2 (runner venvPython args2) with
        | Except.error e =>
            (fs1, Except.error e, [(pythonCommand, args1), (venvPython, args2)])
        | Except.ok _ =>
            (fs1, Except.ok (), [(pythonCommand, args1), (venvPython, args2)])

/-! ## Environment Path Resolver (src/unnamed/part_000 lines 137-180) -/

/-- The venv path computed inside the managed branch of getVenvExecutable: the
storage path, the fixed tool directory, venv, the platform bin directory, and
the executable name with the platform suffix. -/
def venvFullPath (storagePath platform osName executableName : String) : String :=
  let venvBase := pJoin (pJoin storagePath "vscode-black-formatter") "venv"
  let binDir :=
    if platform == "win32" && !(strStartsWith osName "MINGW") then "Scripts" else "bin"
  let ext := if platform == "win32" then ".exe" else ""
  pJoin (pJoin venvBase binDir) (executableName ++ ext)

/-- Embedding of getVenvExecutable (src/unnamed/part_000 lines 137-153). In
global mode the result of the which lookup is a parameter, passed through the
realpath oracle, with the empty string for a failed lookup. In managed mode
the computed venv path is returned when it exists on disk, and the bare
executable name is returned otherwise. -/
def getVenvExecutable (useGlobal : Bool) (whichResult : Option String)
    (realpath : String → String) (fs : List String)
    (storagePath platform osName executableName : String) : String :=
  if useGlobal then
    match whichResult with
    | some p => realpath p
    | none => ""
  else
    let fullPath := venvFullPath storagePath platform osName executableName
    if fs.contains fullPath then fullPath else executableName

/-- Embedding of getBlackLspBlackPath (src/unnamed/part_000 lines 174-176). -/
def getBlackLspBlackPath (useGlobal : Bool) (whichResult : Option String)
    (realpath : String → String) (fs : List String)
    (storagePath platform osName : String) : String :=
  getVenvExecutable useGlobal whichResult realpath fs storagePath platform osName "black"

/-- Embedding of getBlackLspServerInterpreterPath (src/unnamed/part_000
lines 178-180). -/
def getBlackLspServerInterpreterPath (useGlobal : Bool) (whichResult : Option String)
    (realpath : String → String) (fs : List String)
    (storagePath platform osName : String) : String :=
  getVenvExecutable useGlobal whichResult realpath fs storagePath platform osName "python"

/-! ## Helper lemmas -/

theorem slashChar_colon : slashChar ':' = ':' := rfl

theorem slashChar_slash : slashChar '/' = '/' := rfl

theorem slashChar_backslash : slashChar '\\' = '/' := rfl

theorem slashChar_idem (c : Char) : slashChar (slashChar c) = slashChar c := by
  unfold slashChar
  by_cases h : c = '\\'
  · subst h; rfl
  · rw [if_neg h, if_neg h]

theorem dotOk_slashChar (c : Char) : dotOk (slashChar c) = dotOk c := by
  unfold slashChar
  by_cases h : c = '\\'
  · subst h; rfl
  · rw [if_neg h]

/-- The per-letter facts used by the translator proofs, checked once over the
52 letters of the regex class. -/
theorem letter_facts : ∀ d ∈ asciiLetters,
    isRegexLetter d = true ∧ slashChar d = d ∧ (d == '/') = false ∧
    isRegexLetter (lowerChar d) = true ∧ lowerChar (lowerChar d) = lowerChar d ∧
    slashChar (lowerChar d) = lowerChar d ∧ (lowerChar d == '/') = false := by decide

theorem all_dropWhile {α : Type} (q p : α → Bool) :
    ∀ l : List α, l.all q = true → (l.dropWhile p).all q = true := by
  intro l
  induction l with
  | nil => intro _; rfl
  | cons a t ih =>
    intro h
    rw [List.all_cons, Bool.and_eq_true] at h
    rw [List.dropWhile_cons]
    by_cases hp : p a = true
    · rw [if_pos hp]; exact ih h.2
    · rw [if_neg hp, List.all_cons, Bool.and_eq_true]; exact ⟨h.1, h.2⟩

theorem dropWhile_idem {α : Type} (p : α → Bool) :
    ∀ l : List α, (l.dropWhile p).dropWhile p = l.dropWhile p := by
  intro l
  induction l with
  | nil => rfl
  | cons a t ih =>
    rw [List.dropWhile_cons]
    by_cases hp : p a = true
    · rw [if_pos hp]; exact ih
    · rw [if_neg hp, List.dropWhile_cons, if_neg hp]

theorem map_slashChar_map (l : List Char) :
    (l.map slashChar).map slashChar = l.map slashChar := by
  rw [List.map_map]
  exact List.map_congr_left fun c _ => slashChar_idem c

theorem map_slashChar_dropLeadingSlashes (l : List Char) :
    (dropLeadingSlashes (l.map slashChar)).map slashChar
      = dropLeadingSlashes (l.map slashChar) := by
  have h1 : ∀ c ∈ dropLeadingSlashes (l.map slashChar), slashChar c = id c := by
    intro c hc
    have hmem : c ∈ l.map slashChar :=
      (List.dropWhile_sublist (fun c => c == '/')).mem hc
    obtain ⟨x, _, rfl⟩ := List.mem_map.mp hmem
    exact slashChar_idem x
  rw [List.map_congr_left h1, List.map_id]

theorem all_dotOk_map_slashChar (l : List Char) (h : l.all dotOk = true) :
    (l.map slashChar).all dotOk = true := by
  rw [List.all_map]
  have hf : dotOk ∘ slashChar = dotOk := funext dotOk_slashChar
  rw [hf]
  exact h

/-- Unfolding equation of toMsys2Path. -/
theorem toMsys2Path_def (resolve : String → String) (input : String) :
    toMsys2Path resolve input =
      match msysMatch (normalizeSlashes input).data with
      | some (d, rest) =>
          Except.ok (String.mk ('/' :: lowerChar d :: '/' :: dropLeadingSlashes rest))
      | none =>
        match winMatch (normalizeSlashes input).data with
        | some (d, rest) => Except.ok (String.mk ('/' :: lowerChar d :: '/' :: rest))
        | none =>
          match winMatch (normalizeSlashes (resolve input)).data with
          | some (d, rest) => Except.ok (String.mk ('/' :: lowerChar d :: '/' :: rest))
          | none => Except.error (msysErrorMsg input) := rfl

theorem msysMatch_cons (c0 d c2 : Char) (rest : List Char) :
    msysMatch (c0 :: d :: c2 :: rest) =
      if c0 == '/' && isRegexLetter d && c2 == '/' && rest.all dotOk then
        some (d, rest)
      else none := rfl

theorem winMatch_cons (d c1 c2 : Char) (rest : List Char) :
    winMatch (d :: c1 :: c2 :: rest) =
      if isRegexLetter d && c1 == ':' && c2 == '/' && rest.all dotOk then
        some (d, rest)
      else none := rfl

theorem normalizeSlashes_mk (l : List Char) :
    (normalizeSlashes (String.mk l)).data = l.map slashChar := rfl

/-! ## Claim theorems: Path Style Translator -/

/-- C3 counterexample: the source drive-letter branch keeps the remainder
verbatim, so an input whose remainder begins with a duplicate separator is not
collapsed, contradicting the claimed collapsed output form. -/
theorem toMsys2Path_drive_collapse_cex :
    toMsys2Path id "C:\\\\a" = Except.ok "/c//a" ∧ ("/c//a" : String) ≠ "/c/a" :=
  ⟨rfl, by decide⟩

/-- C3 (amended): for every native Windows absolute path consisting of a drive
letter, a colon, one separator, and a remainder the regex dot can match,
toMsys2Path returns slash, the lower-cased letter, slash, and the remainder
with backslashes normalized to forward slashes and otherwise kept verbatim; in
particular the C drive example translates as claimed. Duplicate leading
separators in the remainder are not collapsed in this branch. -/
theorem toMsys2Path_drive_letter (resolve : String → String) (d sep : Char)
    (rest : List Char) (hd : d ∈ asciiLetters) (hsep : sep = '/' ∨ sep = '\\')
    (hrest : (rest.map slashChar).all dotOk = true) :
    toMsys2Path resolve (String.mk (d :: ':' :: sep :: rest)) =
      Except.ok (String.mk ('/' :: lowerChar d :: '/' :: rest.map slashChar)) := by
  obtain ⟨hlet, hself, hslash, -, -, -, -⟩ := letter_facts d hd
  have hsep' : slashChar sep = '/' := by rcases hsep with h | h <;> subst h <;> rfl
  have hnorm : (normalizeSlashes (String.mk (d :: ':' :: sep :: rest))).data
      = d :: ':' :: '/' :: rest.map slashChar := by
    rw [normalizeSlashes_mk, List.map_cons, List.map_cons, List.map_cons,
      hself, slashChar_colon, hsep']
  rw [toMsys2Path_def, hnorm, msysMatch_cons, winMatch_cons]
  simp [hslash, hlet, hrest]

/-- C3 witness: the concrete drive-letter example of the claim. -/
theorem toMsys2Path_drive_letter_witness :
    toMsys2Path id "C:\\a\\b" = Except.ok "/c/a/b" := by
  have h := toMsys2Path_drive_letter id 'C' '\\' ['a', '\\', 'b'] (by decide)
    (Or.inr rfl) (by decide)
  exact h

/-- C4 counterexample: the POSIX branch collapses duplicate leading separators
and therefore does not return the input with only the letter lower-cased, and
toMsys2Path is not idempotent: translating the drive path C colon slash slash
a yields slash c slash slash a, whose own translation differs from it. -/
theorem toMsys2Path_idempotence_cex :
    toMsys2Path id "C://a" = Except.ok "/c//a" ∧
    toMsys2Path id "/c//a" = Except.ok "/c/a" ∧
    ("/c/a" : String) ≠ "/c//a" ∧
    toMsys2Path id "/C//a" = Except.ok "/c/a" :=
  ⟨rfl, rfl, by decide, rfl⟩

/-- C4 (amended): on a POSIX-emulation-form input of slash, letter, slash,
remainder, toMsys2Path lower-cases the letter, normalizes backslashes in the
remainder and collapses its leading separators; the resulting output is a
fixed point of toMsys2Path, so translation is idempotent on the POSIX branch;
and when the remainder needs no normalization and has no leading separator the
result is exactly the input with the drive letter lower-cased. -/
theorem toMsys2Path_posix_form (resolve : String → String) (d : Char)
    (rest : List Char) (hd : d ∈ asciiLetters)
    (hrest : (rest.map slashChar).all dotOk = true) :
    toMsys2Path resolve (String.mk ('/' :: d :: '/' :: rest)) =
      Except.ok (String.mk
        ('/' :: lowerChar d :: '/' :: dropLeadingSlashes (rest.map slashChar))) ∧
    toMsys2Path resolve (String.mk
        ('/' :: lowerChar d :: '/' :: dropLeadingSlashes (rest.map slashChar))) =
      Except.ok (String.mk
        ('/' :: lowerChar d :: '/' :: dropLeadingSlashes (rest.map slashChar))) ∧
    (rest.map slashChar = rest → dropLeadingSlashes rest = rest →
      toMsys2Path resolve (String.mk ('/' :: d :: '/' :: rest)) =
        Except.ok (String.mk ('/' :: lowerChar d :: '/' :: rest))) := by
  obtain ⟨hlet, hself, -, hlet2, hlow2, hself2, -⟩ := letter_facts d hd
  have h1 : toMsys2Path resolve (String.mk ('/' :: d :: '/' :: rest)) =
      Except.ok (String.mk
        ('/' :: lowerChar d :: '/' :: dropLeadingSlashes (rest.map slashChar))) := by
    have hnorm : (normalizeSlashes (String.mk ('/' :: d :: '/' :: rest))).data
        = '/' :: d :: '/' :: rest.map slashChar := by
      rw [normalizeSlashes_mk, List.map_cons, List.map_cons, List.map_cons,
        hself, slashChar_slash]
    rw [toMsys2Path_def, hnorm, msysMatch_cons]
    simp [hlet, hrest]
  refine ⟨h1, ?_, ?_⟩
  · have hq : (dropLeadingSlashes (rest.map slashChar)).all dotOk = true :=
      all_dropWhile dotOk (fun c => c == '/') _ hrest
    have hnorm2 : (normalizeSlashes (String.mk
        ('/' :: lowerChar d :: '/' :: dropLeadingSlashes (rest.map slashChar)))).data
        = '/' :: lowerChar d :: '/' :: dropLeadingSlashes (rest.map slashChar) := by
      rw [normalizeSlashes_mk, List.map_cons, List.map_cons, List.map_cons,
        hself2, slashChar_slash, map_slashChar_dropLeadingSlashes]
    have hdi : dropLeadingSlashes (dropLeadingSlashes (rest.map slashChar))
        = dropLeadingSlashes (rest.map slashChar) := dropWhile_idem _ _
    rw [toMsys2Path_def, hnorm2, msysMatch_cons]
    simp [hlet2, hq, hlow2, hdi]
  · intro hmap hdrop
    rw [h1, hmap, hdrop]

/-- C4 witness: a lower-case-only POSIX path passes through unchanged and an
upper-case drive letter is lower-cased; applying the translator to its own
output returns the output again. -/
theorem toMsys2Path_posix_form_witness :
    toMsys2Path id "/C/a" = Except.ok "/c/a" ∧
    toMsys2Path id "/c/a" = Except.ok "/c/a" := by
  have h := toMsys2Path_posix_form id 'C' ['a'] (by decide) (by decide)
  exact ⟨h.2.2 rfl rfl, h.2.1⟩

/-- C5: when the input matches neither recognized form, and the drive-letter
retry on the resolved absolute form fails as well, toMsys2Path fails with an
error naming the original input, and never returns any value, in particular
not the input passed through unchanged. -/
theorem toMsys2Path_unrecognized_fails (resolve : String → String) (input : String)
    (h1 : msysMatch (normalizeSlashes input).data = none)
    (h2 : winMatch (normalizeSlashes input).data = none)
    (h3 : winMatch (normalizeSlashes (resolve input)).data = none) :
    toMsys2Path resolve input = Except.error (msysErrorMsg input) ∧
    (∀ s, toMsys2Path resolve input ≠ Except.ok s) ∧
    (∃ pre post, msysErrorMsg input = pre ++ input ++ post) := by
  have he : toMsys2Path resolve input = Except.error (msysErrorMsg input) := by
    rw [toMsys2Path_def, h1, h2, h3]
  refine ⟨he, ?_, ?_⟩
  · intro s
    rw [he]
    exact fun hcontra => Except.noConfusion hcontra
  · exact ⟨"Cannot convert to MSYS2 path: \"",
      "\". Expected Windows absolute path (e.g., \"C:\\a\\b\") or MSYS2 path (e.g., \"/c/a/b\").",
      rfl⟩

/-- C5 witness: the UNC path of two backslashes, server, backslash, share is
rejected with the error naming it. -/
theorem toMsys2Path_unrecognized_fails_witness :
    toMsys2Path id "\\\\server\\share" = Except.error (msysErrorMsg "\\\\server\\share") ∧
    toMsys2Path id "\\\\server\\share" ≠ Except.ok "\\\\server\\share" := by
  have h := toMsys2Path_unrecognized_fails id "\\\\server\\share" rfl rfl rfl
  exact ⟨h.1, h.2.1 "\\\\server\\share"⟩

/-! ## Claim theorems: Path Style Detector -/

theorem isMsys2Python_hit (st : DetState) (k : String) (p : Nat)
    (h : st.cache.lookup k = some p) : isMsys2Python st k = (st, p, false) := by
  unfold isMsys2Python
  rw [h]

theorem callN_cached (st : DetState) (k : String) (p : Nat)
    (h : st.cache.lookup k = some p) :
    ∀ n, callN st k n = (st, List.replicate n (p, false)) := by
  intro n
  induction n with
  | zero => rfl
  | succ m ih =>
    simp [callN, isMsys2Python_hit st k p h, ih, List.replicate_succ]

theorem spawnCount_replicate (n p : Nat) :
    spawnCount (List.replicate n (p, false)) = 0 := by
  induction n with
  | zero => rfl
  | succ m ih =>
    rw [List.replicate_succ]
    simp [spawnCount, List.filter_cons]

theorem spawnCount_cons_true (p : Nat) (l : List (Nat × Bool)) :
    spawnCount ((p, true) :: l) = spawnCount l + 1 := by
  simp [spawnCount, List.filter_cons]

theorem lookup_filter_ne (k : String) :
    ∀ l : List (String × Nat), (l.filter (fun e => !(e.1 == k))).lookup k = none := by
  intro l
  induction l with
  | nil => rfl
  | cons a t ih =>
    obtain ⟨a1, a2⟩ := a
    rw [List.filter_cons]
    by_cases h : a1 = k
    · have hb : (!((a1, a2).1 == k)) = false := by simp [h]
      rw [hb]
      simpa using ih
    · have hb : (!((a1, a2).1 == k)) = true := by simp [h]
      rw [hb]
      simp only [if_true]
      have hk : (k == a1) = false := by
        simp [beq_iff_eq]
        exact fun hc => h hc.symm
      simpa [List.lookup, hk] using ih

/-- C1: single-flight detection. If a cache entry for the key exists, a call
returns that same cached promise with no new probe subprocess; and starting
from a state with no entry for the key, any sequence of n consecutive calls
for that key spawns exactly one probe subprocess, and every one of the n
callers receives the same promise, hence observes the same eventual
outcome. -/
theorem isMsys2Python_single_flight (st : DetState) (k : String) :
    (∀ p, st.cache.lookup k = some p → isMsys2Python st k = (st, p, false)) ∧
    (st.cache.lookup k = none → ∀ n, 1 ≤ n →
      spawnCount (callN st k n).2 = 1 ∧
      ∀ pr ∈ (callN st k n).2, pr.1 = st.nextId) := by
  constructor
  · intro p h
    exact isMsys2Python_hit st k p h
  · intro h n hn
    obtain ⟨m, rfl⟩ : ∃ m, n = m + 1 := ⟨n - 1, by omega⟩
    have hcall : isMsys2Python st k =
        (DetState.mk ((k, st.nextId) :: st.cache) (st.nextId + 1), st.nextId, true) := by
      unfold isMsys2Python
      rw [h]
    have hlook : (DetState.mk ((k, st.nextId) :: st.cache) (st.nextId + 1)).cache.lookup k
        = some st.nextId := by
      simp [List.lookup]
    have hrest := callN_cached _ k st.nextId hlook m
    have hN : callN st k (m + 1) =
        (DetState.mk ((k, st.nextId) :: st.cache) (st.nextId + 1),
         (st.nextId, true) :: List.replicate m (st.nextId, false)) := by
      simp [callN, hcall, hrest]
    rw [hN]
    constructor
    · rw [spawnCount_cons_true, spawnCount_replicate]
    · intro pr hpr
      rcases List.mem_cons.mp hpr with hh | ht
      · rw [hh]
      · rw [(List.eq_of_mem_replicate ht)]

/-- C1 witness: a concrete cache hit reuses promise 7 without spawning, and
three consecutive calls from an empty cache spawn exactly one probe. -/
theorem isMsys2Python_single_flight_witness :
    isMsys2Python (DetState.mk [("/usr/bin/python", 7)] 8) "/usr/bin/python"
      = (DetState.mk [("/usr/bin/python", 7)] 8, 7, false) ∧
    spawnCount (callN (DetState.mk [] 0) "/usr/bin/python" 3).2 = 1 := by
  constructor
  · exact (isMsys2Python_single_flight (DetState.mk [("/usr/bin/python", 7)] 8)
      "/usr/bin/python").1 7 rfl
  · exact ((isMsys2Python_single_flight (DetState.mk [] 0) "/usr/bin/python").2
      rfl 3 (by omega)).1

/-- C2 counterexample: after a probe close with a termination signal (the
shape a timeout produces) the cache entry is not evicted, and the immediately
following call reuses the cached promise and spawns no new probe; the claim
requires eviction and a fresh probe. -/
theorem detection_cache_eviction_cex :
    (handleProbeEvent (DetState.mk [("/usr/bin/python", 0)] 1) "/usr/bin/python"
        (ProbeEvent.close none (some "SIGTERM") "" "")).1
      = DetState.mk [("/usr/bin/python", 0)] 1 ∧
    (DetState.mk [("/usr/bin/python", 0)] 1).cache.lookup "/usr/bin/python" = some 0 ∧
    (isMsys2Python (DetState.mk [("/usr/bin/python", 0)] 1) "/usr/bin/python").2.2
      = false ∧
    (isMsys2Python (DetState.mk [("/usr/bin/python", 0)] 1) "/usr/bin/python").2.1 = 0 :=
  ⟨rfl, rfl, rfl, rfl⟩

/-- C2 (amended): only a spawn error evicts the detection-cache entry; its
rejection wraps the cause and a later lookup finds no entry, so a retry
spawns anew. A close with a nonzero exit code or a signal (timeout) rejects
with an error wrapping the code, signal and stderr, but leaves the cache
unchanged, so an immediately following call reuses the rejected promise and
spawns no new probe. -/
theorem handleProbeEvent_eviction (st : DetState) (k : String) :
    (∀ m, handleProbeEvent st k (ProbeEvent.spawnError m) =
      (DetState.mk (st.cache.filter (fun e => !(e.1 == k))) st.nextId,
       ProbeOutcome.rejected ("Failed to spawn Python at " ++ k ++ ": " ++ m))) ∧
    (∀ m, ((handleProbeEvent st k (ProbeEvent.spawnError m)).1).cache.lookup k = none) ∧
    (∀ code signal out errout, code ≠ some 0 ∨ signal ≠ none →
      handleProbeEvent st k (ProbeEvent.close code signal out errout) =
        (st, ProbeOutcome.rejected
          ("Python at " ++ k ++ " exited with code " ++ optIntStr code ++
            " or signal " ++ optStrStr signal ++ ". Stderr: \"" ++
            jsTrim errout ++ "\""))) ∧
    (∀ code signal out errout p, st.cache.lookup k = some p →
      (code ≠ some 0 ∨ signal ≠ none) →
      isMsys2Python (handleProbeEvent st k (ProbeEvent.close code signal out errout)).1 k
        = ((handleProbeEvent st k (ProbeEvent.close code signal out errout)).1, p, false)) := by
  have hclose : ∀ (code : Option Int) (signal : Option String) (out errout : String),
      code ≠ some 0 ∨ signal ≠ none →
      handleProbeEvent st k (ProbeEvent.close code signal out errout) =
        (st, ProbeOutcome.rejected
          ("Python at " ++ k ++ " exited with code " ++ optIntStr code ++
            " or signal " ++ optStrStr signal ++ ". Stderr: \"" ++
            jsTrim errout ++ "\"")) := by
    intro code signal out errout hfail
    simp only [handleProbeEvent]
    rw [if_pos hfail]
  refine ⟨fun m => rfl, ?_, hclose, ?_⟩
  · intro m
    exact lookup_filter_ne k st.cache
  · intro code signal out errout p hp hfail
    rw [hclose code signal out errout hfail]
    exact isMsys2Python_hit st k p hp

/-- C2 amended-claim witness: a concrete spawn error deletes the entry, and a
concrete nonzero exit leaves it cached so the next call does not spawn. -/
theorem handleProbeEvent_eviction_witness :
    ((handleProbeEvent (DetState.mk [("/usr/bin/python", 4)] 5) "/usr/bin/python"
        (ProbeEvent.spawnError "ENOENT")).1).cache.lookup "/usr/bin/python" = none ∧
    isMsys2Python (handleProbeEvent (DetState.mk [("/usr/bin/python", 4)] 5)
        "/usr/bin/python" (ProbeEvent.close (some 1) none "" "boom")).1 "/usr/bin/python"
      = ((handleProbeEvent (DetState.mk [("/usr/bin/python", 4)] 5) "/usr/bin/python"
          (ProbeEvent.close (some 1) none "" "boom")).1, 4, false) := by
  constructor
  · exact (handleProbeEvent_eviction (DetState.mk [("/usr/bin/python", 4)] 5)
      "/usr/bin/python").2.1 "ENOENT"
  · exact (handleProbeEvent_eviction (DetState.mk [("/usr/bin/python", 4)] 5)
      "/usr/bin/python").2.2.2 (some 1) none "" "boom" 4 rfl
      (Or.inl (by decide))

/-- C10: a close event with exit code zero and no signal always resolves the
detection promise, never rejects it: the result is true exactly when trimmed
stdout equals the MSYS2 sentinel, and empty, NATIVE, or unrecognized output
resolves to false; the cache is left unchanged. -/
theorem isMsys2Python_clean_exit_resolves (st : DetState) (k out errout : String) :
    handleProbeEvent st k (ProbeEvent.close (some 0) none out errout)
      = (st, ProbeOutcome.resolved (jsTrim out == "MSYS2")) ∧
    (jsTrim "MSYS2\n" == "MSYS2") = true ∧
    (jsTrim "NATIVE\n" == "MSYS2") = false ∧
    (jsTrim "" == "MSYS2") = false ∧
    (jsTrim "pyenv: warning" == "MSYS2") = false := by
  refine ⟨?_, by decide, by decide, by decide, by decide⟩
  simp only [handleProbeEvent]
  rw [if_neg]
  intro hcontra
  rcases hcontra with hc | hs
  · exact hc rfl
  · exact hs rfl

/-! ## Claim theorems: extractor, provisioner, resolver -/

theorem mem_removeTree_of_pred {fs : List String} {t p : String} (hp : p ∈ fs)
    (hcond : (p == t || strIsPrefixOf (t ++ "/") p) = false) : p ∈ removeTree fs t := by
  apply List.mem_filter.mpr
  exact ⟨hp, by rw [hcond]; rfl⟩

theorem removeTree_contains_false (fs : List String) (t z : String)
    (h : fs.contains z = false) : (removeTree fs t).contains z = false := by
  cases hc : (removeTree fs t).contains z with
  | false => rfl
  | true =>
    have hz : z ∈ removeTree fs t := List.mem_of_elem_eq_true hc
    have hz2 : z ∈ fs := (List.mem_filter.mp hz).1
    have h2 : List.elem z fs = false := h
    rw [List.elem_eq_true_of_mem hz2] at h2
    exact Bool.noConfusion h2

theorem pJoin_ne_empty (a b : String) : pJoin a b ≠ "" := by
  intro hcontra
  have hl : (pJoin a b).length = (0 : Nat) := by rw [hcontra]; rfl
  rw [pJoin, String.length_append, String.length_append] at hl
  have hone : ("/" : String).length = 1 := rfl
  rw [hone] at hl
  omega

/-- C6 counterexample: with the archive missing and the unpacked install
directory present, doExtract deletes the unpacked directory, so it is not a
no-op on the existing install. -/
theorem doExtract_missing_zip_cex :
    doExtract ["root/tool", "root/tool/version.txt"] "root" "tool" "v1" [] = [] ∧
    (([] : List String) ≠ ["root/tool", "root/tool/version.txt"]) :=
  ⟨rfl, by decide⟩

/-- C6 (amended): when the canonical archive file is absent, doExtract
completes normally without extracting anything, but it is not a no-op: it
first unconditionally removes the unpacked install directory, and the result
is exactly the filesystem with that directory subtree removed; every path
outside the subtree survives. -/
theorem doExtract_missing_zip (fs : List String)
    (storagePath toolName vtag : String) (entries : List String)
    (h : fs.contains (pJoin storagePath (toolName ++ ".zip")) = false) :
    doExtract fs storagePath toolName vtag entries
      = removeTree fs (pJoin storagePath toolName) ∧
    (∀ p ∈ fs,
      (p == pJoin storagePath toolName
        || strIsPrefixOf (pJoin storagePath toolName ++ "/") p) = false →
      p ∈ doExtract fs storagePath toolName vtag entries) := by
  have h1 : (removeTree fs (pJoin storagePath toolName)).contains
      (pJoin storagePath (toolName ++ ".zip")) = false :=
    removeTree_contains_false fs _ _ h
  have he : doExtract fs storagePath toolName vtag entries
      = removeTree fs (pJoin storagePath toolName) := by
    simp only [doExtract]
    rw [h1]
    rfl
  refine ⟨he, ?_⟩
  intro p hp hcond
  rw [he]
  exact mem_removeTree_of_pred hp hcond

/-- C6 witness: a concrete filesystem without the archive; the file outside
the install subtree survives while the subtree is removed. -/
theorem doExtract_missing_zip_witness :
    doExtract ["root/keep.txt", "root/tool"] "root" "tool" "v1" []
      = removeTree ["root/keep.txt", "root/tool"] "root/tool" ∧
    "root/keep.txt" ∈ doExtract ["root/keep.txt", "root/tool"] "root" "tool" "v1" [] := by
  have h := doExtract_missing_zip ["root/keep.txt", "root/tool"] "root" "tool" "v1" [] rfl
  exact ⟨h.1, h.2 "root/keep.txt" (by simp) rfl⟩

/-- C7 counterexample: in managed mode with nothing provisioned on disk,
getBlackLspBlackPath returns the bare executable name, a present, non-empty
value, instead of an absent result. -/
theorem getBlackLspBlackPath_fallback_cex :
    getBlackLspBlackPath false none id [] "/storage" "linux" "Linux" = "black" ∧
    (("black" : String) ≠ "") ∧
    ([] : List String).contains (venvFullPath "/storage" "linux" "Linux" "black")
      = false :=
  ⟨rfl, by decide, rfl⟩

theorem getVenvExecutable_false_eq (whichResult : Option String)
    (realpath : String → String) (fs : List String)
    (storagePath platform osName executableName : String) :
    getVenvExecutable false whichResult realpath fs storagePath platform osName
        executableName
      = if fs.contains (venvFullPath storagePath platform osName executableName) then
          venvFullPath storagePath platform osName executableName
        else executableName := rfl

/-- C7 (amended): in managed mode the resolver returns the venv executable
path exactly when that path exists on disk; when the managed environment was
never provisioned it falls back to the bare executable name rather than an
absent value, and in particular the black resolver never yields the empty
string in managed mode. -/
theorem getVenvExecutable_managed (whichResult : Option String)
    (realpath : String → String) (fs : List String)
    (storagePath platform osName executableName : String) :
    (fs.contains (venvFullPath storagePath platform osName executableName) = true →
      getVenvExecutable false whichResult realpath fs storagePath platform osName
          executableName
        = venvFullPath storagePath platform osName executableName) ∧
    (fs.contains (venvFullPath storagePath platform osName executableName) = false →
      getVenvExecutable false whichResult realpath fs storagePath platform osName
          executableName
        = executableName) ∧
    getBlackLspBlackPath false whichResult realpath fs storagePath platform osName ≠ "" := by
  refine ⟨?_, ?_, ?_⟩
  · intro h
    rw [getVenvExecutable_false_eq, if_pos h]
  · intro h
    rw [getVenvExecutable_false_eq, if_neg]
    intro hc
    rw [h] at hc
    exact Bool.noConfusion hc
  · rw [getBlackLspBlackPath, getVenvExecutable_false_eq]
    cases h : fs.contains (venvFullPath storagePath platform osName "black") with
    | true =>
      rw [if_pos rfl]
      exact pJoin_ne_empty _ _
    | false =>
      rw [if_neg (fun hc => Bool.noConfusion hc)]
      decide

/-- C7 witness: with the venv black binary on disk the full path is returned;
with an empty filesystem the bare name is returned. -/
theorem getVenvExecutable_managed_witness :
    getVenvExecutable false none id ["/s/vscode-black-formatter/venv/bin/black"]
        "/s" "linux" "Linux" "black"
      = "/s/vscode-black-formatter/venv/bin/black" ∧
    getVenvExecutable false none id [] "/s" "linux" "Linux" "black" = "black" := by
  constructor
  · exact (getVenvExecutable_managed none id
      ["/s/vscode-black-formatter/venv/bin/black"] "/s" "linux" "Linux" "black").1 rfl
  · exact (getVenvExecutable_managed none id [] "/s" "linux" "Linux" "black").2.1 rfl

/-- C8 counterexample: under a MINGW os report on the win32 platform, the
managed interpreter path uses the bin directory but still carries the exe
suffix, contradicting the claim that the suffix appears only on native
Windows. -/
theorem getVenvPythonPath_mingw_ext_cex :
    getVenvPythonPath "st" "tool" "win32" "MINGW64_NT-10.0"
      = "st/tool/venv/bin/python.exe" ∧
    (("st/tool/venv/bin/python.exe" : String) ≠ "st/tool/venv/bin/python") :=
  ⟨rfl, by decide⟩

/-- C8 (amended): the managed interpreter path is the storage root, the tool
directory, venv, the bin directory and the python executable, where the bin
directory is Scripts exactly on win32 with a non-MINGW os report and bin
otherwise, while the exe suffix is appended whenever the platform is win32,
including MINGW environments; and the resolver computes the same interpreter
path whenever it exists on disk. -/
theorem getVenvPythonPath_cases (storagePath venvName platform osName : String) :
    (platform ≠ "win32" →
      getVenvPythonPath storagePath venvName platform osName
        = pJoin (pJoin (pJoin (pJoin storagePath venvName) "venv") "bin") "python") ∧
    (platform = "win32" → strStartsWith osName "MINGW" = true →
      getVenvPythonPath storagePath venvName platform osName
        = pJoin (pJoin (pJoin (pJoin storagePath venvName) "venv") "bin") "python.exe") ∧
    (platform = "win32" → strStartsWith osName "MINGW" = false →
      getVenvPythonPath storagePath venvName platform osName
        = pJoin (pJoin (pJoin (pJoin storagePath venvName) "venv") "Scripts")
            "python.exe") ∧
    (∀ (whichResult : Option String) (realpath : String → String) (fs : List String),
      fs.contains (venvFullPath storagePath platform osName "python") = true →
      getBlackLspServerInterpreterPath false whichResult realpath fs storagePath
          platform osName
        = getVenvPythonPath storagePath "vscode-black-formatter" platform osName) := by
  refine ⟨?_, ?_, ?_, ?_⟩
  · intro h
    have hb : (platform == "win32") = false := by
      simp [beq_iff_eq]; exact h
    simp [getVenvPythonPath, hb]
  · intro h hm
    subst h
    simp [getVenvPythonPath, hm]
  · intro h hm
    subst h
    simp [getVenvPythonPath, hm]
  · intro whichResult realpath fs h
    rw [getBlackLspServerInterpreterPath, getVenvExecutable_false_eq, if_pos h]
    rfl

/-- C8 witness: concrete paths on a non-Windows platform and on native
Windows, plus the resolver agreement when the path exists. -/
theorem getVenvPythonPath_cases_witness :
    getVenvPythonPath "s" "t" "linux" "Linux" = "s/t/venv/bin/python" ∧
    getVenvPythonPath "s" "t" "win32" "Windows_NT" = "s/t/venv/Scripts/python.exe" ∧
    getBlackLspServerInterpreterPath false none id
        ["s/vscode-black-formatter/venv/bin/python"] "s" "linux" "Linux"
      = getVenvPythonPath "s" "vscode-black-formatter" "linux" "Linux" := by
  refine ⟨?_, ?_, ?_⟩
  · exact (getVenvPythonPath_cases "s" "t" "linux" "Linux").1 (by decide)
  · exact (getVenvPythonPath_cases "s" "t" "win32" "Windows_NT").2.2.1 rfl rfl
  · exact (getVenvPythonPath_cases "s" "vscode-black-formatter" "linux" "Linux").2.2.2
      none id ["s/vscode-black-formatter/venv/bin/python"] rfl

theorem doInstall_false_eq (fs : List String)
    (storagePath toolName pythonCommand platform osName : String)
    (runner : String → List String → RunResult) :
    doInstall false fs storagePath toolName pythonCommand platform osName runner
      = if !(fs.contains (pJoin (pJoin storagePath toolName) "requirements.txt")) then
          (fs, Except.error "Missing requirements.txt", [])
        else
          match spawnAsync ["-m", "venv", pJoin (pJoin storagePath toolName) "venv"]
              (runner pythonCommand
                ["-m", "venv", pJoin (pJoin storagePath toolName) "venv"]) with
          | Except.error e =>
              (removeTree fs (pJoin (pJoin storagePath toolName) "venv"), Except.error e,
               [(pythonCommand, ["-m", "venv", pJoin (pJoin storagePath toolName) "venv"])])
          | Except.ok _ =>
            match spawnAsync ["-m", "pip", "install", "-r",
                  pJoin (pJoin storagePath toolName) "requirements.txt"]
                (runner (getVenvPythonPath storagePath toolName platform osName)
                  ["-m", "pip", "install", "-r",
                    pJoin (pJoin storagePath toolName) "requirements.txt"]) with
            | Except.error e =>
                (removeTree fs (pJoin (pJoin storagePath toolName) "venv"), Except.error e,
                 [(pythonCommand, ["-m", "venv", pJoin (pJoin storagePath toolName) "venv"]),
                  (getVenvPythonPath storagePath toolName platform osName,
                   ["-m", "pip", "install", "-r",
                     pJoin (pJoin storagePath toolName) "requirements.txt"])])
            | Except.ok _ =>
                (removeTree fs (pJoin (pJoin storagePath toolName) "venv"), Except.ok (),
                 [(pythonCommand, ["-m", "venv", pJoin (pJoin storagePath toolName) "venv"]),
                  (getVenvPythonPath storagePath toolName platform osName,
                   ["-m", "pip", "install", "-r",
                     pJoin (pJoin storagePath toolName) "requirements.txt"])]) := rfl

/-- C9: when the dependency manifest is absent doInstall fails with the
manifest-missing error before any destructive step: the filesystem is
returned unchanged and no process is invoked; when the manifest exists the
venv-creation step and the pip-install step run in that order through the
process runner, and a failure of the first step aborts with its error without
attempting the second. -/
theorem doInstall_manifest_gate (fs : List String)
    (storagePath toolName pythonCommand platform osName : String)
    (runner : String → List String → RunResult) :
    (fs.contains (pJoin (pJoin storagePath toolName) "requirements.txt") = false →
      doInstall false fs storagePath toolName pythonCommand platform osName runner
        = (fs, Except.error "Missing requirements.txt", [])) ∧
    (∀ e, fs.contains (pJoin (pJoin storagePath toolName) "requirements.txt") = true →
      spawnAsync ["-m", "venv", pJoin (pJoin storagePath toolName) "venv"]
          (runner pythonCommand ["-m", "venv", pJoin (pJoin storagePath toolName) "venv"])
        = Except.error e →
      doInstall false fs storagePath toolName pythonCommand platform osName runner
        = (removeTree fs (pJoin (pJoin storagePath toolName) "venv"), Except.error e,
           [(pythonCommand, ["-m", "venv", pJoin (pJoin storagePath toolName) "venv"])])) ∧
    (∀ o1 e1 o2 e2,
      fs.contains (pJoin (pJoin storagePath toolName) "requirements.txt") = true →
      spawnAsync ["-m", "venv", pJoin (pJoin storagePath toolName) "venv"]
          (runner pythonCommand ["-m", "venv", pJoin (pJoin storagePath toolName) "venv"])
        = Except.ok (o1, e1) →
      spawnAsync ["-m", "pip", "install", "-r",
            pJoin (pJoin storagePath toolName) "requirements.txt"]
          (runner (getVenvPythonPath storagePath toolName platform osName)
            ["-m", "pip", "install", "-r",
              pJoin (pJoin storagePath toolName) "requirements.txt"])
        = Except.ok (o2, e2) →
      doInstall false fs storagePath toolName pythonCommand platform osName runner
        = (removeTree fs (pJoin (pJoin storagePath toolName) "venv"), Except.ok (),
           [(pythonCommand, ["-m", "venv", pJoin (pJoin storagePath toolName) "venv"]),
            (getVenvPythonPath storagePath toolName platform osName,
             ["-m", "pip", "install", "-r",
               pJoin (pJoin storagePath toolName) "requirements.txt"])])) := by
  refine ⟨?_, ?_, ?_⟩
  · intro h
    rw [doInstall_false_eq, if_pos (show (!(fs.contains
      (pJoin (pJoin storagePath toolName) "requirements.txt"))) = true by rw [h]; rfl)]
  · intro e h h1
    have hneg : ¬((!(fs.contains
        (pJoin (pJoin storagePath toolName) "requirements.txt"))) = true) := by
      rw [h]
      exact fun hc => Bool.noConfusion hc
    rw [doInstall_false_eq, if_neg hneg, h1]
  · intro o1 e1 o2 e2 h h1 h2
    have hneg : ¬((!(fs.contains
        (pJoin (pJoin storagePath toolName) "requirements.txt"))) = true) := by
      rw [h]
      exact fun hc => Bool.noConfusion hc
    rw [doInstall_false_eq, if_neg hneg, h1, h2]

/-- C9 witness: a missing manifest aborts with no invocation; with the
manifest present a failing first step invokes only the venv creation; with
both steps succeeding the two invocations happen in order. -/
theorem doInstall_manifest_gate_witness :
    doInstall false [] "s" "t" "python" "linux" "Linux" (fun _ _ => RunResult.ok "" "")
      = ([], Except.error "Missing requirements.txt", []) ∧
    doInstall false ["s/t/requirements.txt"] "s" "t" "python" "linux" "Linux"
        (fun _ _ => RunResult.exitFail (some 1) "bad")
      = (["s/t/requirements.txt"],
         Except.error
           "Command failed with exit code 1.\nArgs: [\"-m\",\"venv\",\"s/t/venv\"]\nStderr: bad",
         [("python", ["-m", "venv", "s/t/venv"])]) ∧
    doInstall false ["s/t/requirements.txt"] "s" "t" "python" "linux" "Linux"
        (fun _ _ => RunResult.ok "done" "")
      = (["s/t/requirements.txt"], Except.ok (),
         [("python", ["-m", "venv", "s/t/venv"]),
          ("s/t/venv/bin/python", ["-m", "pip", "install", "-r", "s/t/requirements.txt"])]) := by
  refine ⟨?_, ?_, ?_⟩
  · exact (doInstall_manifest_gate [] "s" "t" "python" "linux" "Linux"
      (fun _ _ => RunResult.ok "" "")).1 rfl
  · exact (doInstall_manifest_gate ["s/t/requirements.txt"] "s" "t" "python" "linux"
      "Linux" (fun _ _ => RunResult.exitFail (some 1) "bad")).2.1 _ rfl rfl
  · exact (doInstall_manifest_gate ["s/t/requirements.txt"] "s" "t" "python" "linux"
      "Linux" (fun _ _ => RunResult.ok "done" "")).2.2 "done" "" "done" "" rfl rfl rfl

end CocBlack
